import Mathlib

/-!
A shallow embedding of the `dolores` tree-walking interpreter core.

This file embeds, in Lean, the resolver and tree-walking evaluator of the
`dolores` scripting-language implementation: the AST (`parser/expr.rs`,
`parser/stmt.rs`), the runtime value domain (`interpreter/object.rs`), the
class/instance model (`interpreter/class.rs`), closures
(`interpreter/closure.rs`), the statement/expression evaluator
(`interpreter/stmt.rs`, `interpreter/expr.rs`) and the static resolver
(`resolver.rs`, `resolver/expr.rs`, `resolver/stmt.rs`).

Modelling conventions:
* Shared mutable environments (`Gc<GcCell<Env>>`) are modelled by an explicit
  heap: a list of environment records addressed by index, threaded through an
  explicit state.  Instances (whose field maps are shared and mutable) live in
  a second heap.  Fresh `Uuid`s are modelled by a counter.
* `f64` is modelled by `Rat`.  The claims settled here concern variant
  dispatch, scoping, control flow and error taxonomy, none of which depend on
  IEEE-754 rounding; exact arithmetic keeps every definition executable in the
  kernel (Lean's `Float` operations do not reduce).
* `anyhow` errors are modelled by a structured error type: each `bail!` site
  becomes one constructor carrying exactly the data its format string
  interpolates.  The repository itself treats error-message rendering as a
  thin concern.  The `break`/`continue`/`return` markers of
  `interpreter/jump.rs`, which the source sends through the same error
  channel, are further constructors of the same type.
* Rust's `&mut self` receivers become explicit state passing: a computation
  returns its final state together with `Except Err α`, so state changes made
  before an error are observable, exactly as they are on a `&mut Interpreter`.
-/

namespace Dolores

/-- `(line, column)` source position, `lexer.rs`. -/
abbrev Pos := Nat × Nat

/-- `TokenType`, `lexer.rs`. -/
inductive Tk where
  | LeftParen | RightParen | LeftBrace | RightBrace | Comma | Dot
  | Minus | Plus | Semicolon | Slash | Star
  | Bang | BangEqual | Equal | EqualEqual
  | Greater | GreaterEqual | Less | LessEqual
  | Identifier | Str | Number
  | And | Break | Class | Continue | Else | False | Fun | For | If | Nil
  | Or | Print | Return | Super | This | True | Var | While
  | SingleLineComment | Error
  deriving DecidableEq, Repr

/-- `Token`, `lexer.rs`: equality and hashing are derived over all three
fields, so two occurrences of the same lexeme at different positions are
distinct resolver keys. -/
structure Token where
  ty : Tk
  lexeme : String
  pos : Pos
  deriving DecidableEq, Repr

/-- `Lit`, `parser/expr.rs` (`Number(f64)` modelled as `Rat`). -/
inductive Lit where
  | Nil
  | Bool (b : Bool)
  | Number (n : Rat)
  | Str (s : String)
  deriving DecidableEq, Repr

mutual

/-- `Expr`, `parser/expr.rs`. -/
inductive Expr where
  | Assign (name : Token) (val : Expr)
  | Binary (lhs : Expr) (op : Token) (rhs : Expr)
  | Call (callee : Expr) (args : List Expr) (endTk : Token)
  | Get (obj : Expr) (name : Token)
  | Grouping (e : Expr)
  | Lambda (params : List Token) (body : List Stmt)
  | Literal (l : Lit)
  | Logical (lhs : Expr) (op : Token) (rhs : Expr)
  | Set (obj : Expr) (name : Token) (toV : Expr)
  | Super (kw : Token) (method : Token)
  | This (kw : Token)
  | Unary (op : Token) (rhs : Expr)
  | Variable (name : Token)

/-- `Stmt`, `parser/stmt.rs` (with the `Option<Expr>` return payload that
`interpreter/stmt.rs` and `resolver/stmt.rs` consume). -/
inductive Stmt where
  | Block (stmts : List Stmt)
  | Class (name : Token) (superclass : Option Expr) (methods : List Stmt)
  | Expression (e : Expr)
  | Fun (name : Token) (params : List Token) (body : List Stmt)
  | If (cond : Expr) (then_stmt : Stmt) (else_stmt : Option Stmt)
  | Jump (t : Token)
  | Print (e : Expr)
  | Return (kw : Token) (val : Option Expr)
  | Var (name : Token) (init : Option Expr)
  | While (cond : Expr) (body : Stmt)

end

/-- `impl Default for Expr`, `parser/expr.rs`: `Literal(Lit::Nil)`. -/
def Expr.default : Expr := .Literal .Nil

/-- `Closure`, `interpreter/closure.rs`.  The captured environment is a heap
address. -/
structure Closure where
  name : Option String
  params : List Token
  body : List Stmt
  env : Nat
  is_init : Bool

mutual

/-- `Object`, `interpreter/object.rs`.  `ForeignFn` carries an opaque host
function pointer in the source; it is kept as an abstract tag here (no foreign
function is constructible in the embedded fragment, so its application is
never reached). -/
inductive Obj where
  | Nil
  | Bool (b : Bool)
  | Number (n : Rat)
  | Str (s : String)
  | NativeFn (c : Closure)
  | ForeignFn (id : Nat)
  | Class (c : ClassV)
  | Instance (addr : Nat)

/-- `Class`, `interpreter/class.rs`: fresh `Uuid` modelled as `Nat`; the
method table, immutable after construction, is inlined as an association
list. -/
inductive ClassV where
  | mk (uid : Nat) (name : String) (superclass : Option ClassV)
       (methods : List (String × Obj))

end

def ClassV.uid : ClassV → Nat
  | .mk u _ _ _ => u

def ClassV.name : ClassV → String
  | .mk _ n _ _ => n

def ClassV.superclass : ClassV → Option ClassV
  | .mk _ _ s _ => s

def ClassV.methods : ClassV → List (String × Obj)
  | .mk _ _ _ m => m

/-- Association-list lookup (modelling `HashMap::get`). -/
def lookupAssoc {κ α : Type} [BEq κ] (l : List (κ × α)) (k : κ) : Option α :=
  (l.find? (fun p => p.1 == k)).map (·.2)

/-- Association-list insert (modelling `HashMap::insert`: replaces an
existing binding for the key, otherwise appends). -/
def assocSet {κ α : Type} [BEq κ] (l : List (κ × α)) (k : κ) (v : α) :
    List (κ × α) :=
  match l with
  | [] => [(k, v)]
  | (k', v') :: rest =>
      if k' == k then (k, v) :: rest else (k', v') :: assocSet rest k v

/-- `Class::method`, `interpreter/class.rs`: local table first, then the
superclass chain. -/
def ClassV.method : ClassV → String → Option Obj
  | .mk _ _ sup methods, name =>
      match lookupAssoc methods name with
      | some o => some o
      | none =>
          match sup with
          | some s => s.method name
          | none => none

/-- `Instance`, `interpreter/class.rs`: class reference + mutable field map
(lives in the instance heap; `Object::Instance` carries the address). -/
structure InstData where
  uid : Nat
  cls : ClassV
  fields : List (String × Obj)

/-- One environment record: `Env { dict, outer }` of the environment heap. -/
structure EnvData where
  dict : List (String × Obj)
  outer : Option Nat

/-- The interpreter state: the two heaps plus the fields of the
`Interpreter` struct (`env`, `globals`, `locals`) used throughout
`interpreter/expr.rs` and `interpreter/stmt.rs`, a `Uuid` counter and the
`print` output stream. -/
structure St where
  envs : List EnvData
  insts : List InstData
  env : Nat
  globals : Nat
  locals : List (Token × Nat)
  uidCtr : Nat
  output : List String

/-- Read an environment record (addresses are only created by allocation, so
the default is never reached). -/
def getEnv (st : St) (a : Nat) : EnvData :=
  st.envs.getD a ⟨[], none⟩

/-- Read an instance record. -/
def getInst (st : St) (a : Nat) : InstData :=
  st.insts.getD a ⟨0, .mk 0 "" none [], []⟩

/-- Allocate a fresh environment, returning its address. -/
def allocEnv (st : St) (e : EnvData) : St × Nat :=
  ({ st with envs := st.envs ++ [e] }, st.envs.length)

/-- `Env::insert_val`: writes into the *given* environment only. -/
def insert_val (st : St) (a : Nat) (ident : String) (v : Obj) : St :=
  let e := getEnv st a
  { st with envs := st.envs.set a { e with dict := assocSet e.dict ident v } }

/-- Modelled from the spec: `lookup_local(env, name)` (§4.1) /
`Env::lookup_dict` — the final `Env` the interpreter modules compile against
is absent from `src/` (the `env.rs` present there is a superseded iteration
without `lookup_dict`); per §4.1 it reads the given environment's own map
only, with no chain walk. -/
def lookup_dict (st : St) (a : Nat) (ident : String) : Option Obj :=
  lookupAssoc (getEnv st a).dict ident

/-- Modelled from the spec: `nth_outer(env, n)` (§4.1) as used by the
interpreter modules — "walk exactly `n` outer links; returns none if the
chain is shorter" (so `n = 0` yields the environment itself).  The
`outer_nth` in `src/`'s `env.rs` is a superseded iteration settled
separately (claim C4). -/
def nth_outer (st : St) (a : Nat) : Nat → Option Nat
  | 0 => some a
  | n + 1 =>
      match (getEnv st a).outer with
      | some o => nth_outer st o n
      | none => none

/-- Alias for the builtin `Bool`: inside the `Obj` namespace the constructor
`Obj.Bool` shadows it. -/
abbrev BoolT := Bool

/-- `Object::to_bool`, `interpreter/object.rs`:
`!matches!(obj, Nil | Bool(false))`. -/
def Obj.to_bool : Obj → BoolT
  | .Nil => false
  | .Bool false => false
  | _ => true

/-- Rendering of a `Number` under `Display` (`{}` then trimming a trailing
`.0`); exact-rational stand-in for the `f64` formatting. -/
def dispNumber (q : Rat) : String :=
  if q.den == 1 then toString q.num else toString q

/-- `impl Display for Object`, `interpreter/object.rs`.  The two variants that
interpolate a machine address (anonymous closures, instances) render a `?`
placeholder here. -/
def Obj.display : Obj → String
  | .Nil => "nil"
  | .Bool true => "true"
  | .Bool false => "false"
  | .Number n => dispNumber n
  | .Str s => "\"" ++ s ++ "\""
  | .NativeFn c =>
      match c.name with
      | some n => "<fun: " ++ n ++ "@native>"
      | none => "<fun: ?@native>"
  | .ForeignFn _ => "<fun: _@foreign>"
  | .Class c => "<class: " ++ c.name ++ ">"
  | .Instance _ => "<instance: ?>"

/-- Derived `PartialEq` for `Object` (`interpreter/object.rs`): variant-wise;
closures compare by pointer identity, which is never shared between the two
freshly evaluated operands of `==`, hence `false`; classes and instances
compare by `uid`. -/
def objEq : Obj → Obj → Bool
  | .Nil, .Nil => true
  | .Bool a, .Bool b => a == b
  | .Number a, .Number b => a == b
  | .Str a, .Str b => a == b
  | .NativeFn _, .NativeFn _ => false
  | .ForeignFn a, .ForeignFn b => a == b
  | .Class a, .Class b => a.uid == b.uid
  | .Instance a, .Instance b => a == b
  | _, _ => false

/-- The structured error/signal type.  Constructors carry exactly what the
corresponding `bail!`/marker site interpolates. -/
inductive Err where
  /-- `BreakMarker`, `interpreter/jump.rs`. -/
  | breakMarker
  /-- `ContinueMarker`, `interpreter/jump.rs`. -/
  | continueMarker
  /-- `ReturnMarker(Object)`, `interpreter/jump.rs`. -/
  | returnMarker (v : Obj)
  /-- "identifier \x7b\x7d is undefined" (Assignment context). -/
  | assignUndefined (pos : Pos) (name : String)
  /-- "identifier \x7b\x7d is undefined" (Variable context). -/
  | varUndefined (pos : Pos) (name : String)
  /-- "identifier `this` is undefined". -/
  | thisUndefined (pos : Pos)
  /-- "identifier `super` is undefined". -/
  | superUndefined (pos : Pos)
  /-- "binary operator ... undefined for (..., ...)": names the operator and
  both operand values (hence their types). -/
  | binaryUndefined (pos : Pos) (op : Tk) (lhs rhs : Obj)
  /-- "unary operator ... undefined for the given object". -/
  | unaryUndefined (pos : Pos) (op : Tk)
  /-- "the object ... is not callable". -/
  | notCallable (pos : Pos) (callee : Obj)
  /-- `Closure::apply`: "unexpected number of parameters (expected \x7b\x7d,
  got \x7b\x7d)" — names both counts. -/
  | arityMismatch (expected got : Nat)
  /-- Class call with no `init`: "unexpected number of parameters (expected
  0, got \x7b\x7d)". -/
  | classArity (pos : Pos) (expected got : Nat)
  /-- "property \x7b\x7d undefined for the given object". -/
  | propertyUndefined (pos : Pos) (name : String)
  /-- "the object ... cannot have properties". -/
  | noProperties (pos : Pos) (obj : Obj)
  /-- "class ... cannot inherit from non-class value ...". -/
  | nonClassSuperclass (pos : Pos) (name : String) (val : Obj)
  /-- `TryFrom<&Object> for f64`: "object ... cannot be converted to
  Number". -/
  | cannotConvNumber (obj : Obj)
  /-- "Internal Error ...: distance (...) out of range". -/
  | distanceOutOfRange (dist : Nat)
  /-- "Internal Error while applying an initializer Closure: `this` not
  found". -/
  | thisNotFound
  /-- An `unreachable!()` site. -/
  | unreachableHit
  /-- A `ForeignFn` application (not constructible in the embedded
  fragment). -/
  | foreignCall
  /-- Resolver: "cannot read local Variable \x7b\x7d in its own
  initializer". -/
  | semanticSelfRef (pos : Pos) (name : String)
  /-- Resolver: "found \x7b\x7d out of loop context". -/
  | semanticJumpOutOfLoop (pos : Pos) (lexeme : String)
  /-- Resolver: "found `return` out of function context". -/
  | semanticReturnOutOfFun (pos : Pos)
  /-- Resolver: "found returned value in initializer context". -/
  | semanticReturnValInInit (pos : Pos)
  /-- A `todo!()` arm of the resolver in `src/` (a panic in the source). -/
  | todoUnimplemented (what : String)
  /-- Artefact of the fuelled embedding; never raised for sufficient fuel. -/
  | noFuel

/-- `TryFrom<&Object> for f64`, `interpreter/object.rs`: numbers pass
through, booleans coerce to 0/1, everything else fails. -/
def tryConvNum : Obj → Except Err Rat
  | .Number n => .ok n
  | .Bool b => .ok (if b then 1 else 0)
  | o => .error (.cannotConvNumber o)

/-- The numeric-only branch set of the `Binary` match: which arithmetic /
comparison result the operator produces, when both operands matched
`Bool(_) | Number(_)`. -/
def numOp : Tk → Option (Rat → Rat → Obj)
  | .Plus => some fun a b => .Number (a + b)
  | .Minus => some fun a b => .Number (a - b)
  | .Star => some fun a b => .Number (a * b)
  | .Slash => some fun a b => .Number (a / b)
  | .Greater => some fun a b => .Bool (decide (a > b))
  | .GreaterEqual => some fun a b => .Bool (decide (a ≥ b))
  | .Less => some fun a b => .Bool (decide (a < b))
  | .LessEqual => some fun a b => .Bool (decide (a ≤ b))
  | _ => none

/-- The `Bool(_) | Number(_)` binder guard of the numeric arms, combined with
`try_conv::<f64>` (which cannot fail on those variants). -/
def asNum : Obj → Option Rat
  | .Number n => some n
  | .Bool b => some (if b then 1 else 0)
  | _ => none

/-- The `Expr::Binary` dispatch of `interpreter/expr.rs` (lines 40–84), as a
function of the operator token and the two already-evaluated operands.  Arm
order follows the source: the three string arms of `+`, then the numeric
arms, then untyped `==`/`!=`, then the catch-all runtime error naming the
operator and both operands. -/
def binOp (op : Tk) (pos : Pos) (l r : Obj) : Except Err Obj :=
  match op, l, r with
  | .Plus, .Str a, .Str b => .ok (.Str (a ++ b))
  | .Plus, .Str a, rhs => .ok (.Str (a ++ rhs.display))
  | .Plus, lhs, .Str b => .ok (.Str (lhs.display ++ b))
  | .EqualEqual, lhs, rhs => .ok (.Bool (objEq lhs rhs))
  | .BangEqual, lhs, rhs => .ok (.Bool (!objEq lhs rhs))
  | ty, lhs, rhs =>
      match numOp ty, asNum lhs, asNum rhs with
      | some f, some a, some b => .ok (f a b)
      | _, _, _ => .error (.binaryUndefined pos ty lhs rhs)

/-- `From<Lit> for Object`, `interpreter/object.rs`. -/
def litToObj : Lit → Obj
  | .Nil => .Nil
  | .Bool b => .Bool b
  | .Number n => .Number n
  | .Str s => .Str s

/-- `HashMap<Token, usize>::get` on `Interpreter::locals` (keys compare by
the full token: type, lexeme and position). -/
def lookupLocals (locals : List (Token × Nat)) (t : Token) : Option Nat :=
  (locals.find? (fun p => p.1 == t)).map (·.2)

/-- `Instance::from(Class)`, `interpreter/class.rs`: fresh uid, empty field
map; returns the new instance's heap address. -/
def allocInst (st : St) (c : ClassV) : St × Nat :=
  ({ st with
      insts := st.insts ++ [⟨st.uidCtr, c, []⟩]
      uidCtr := st.uidCtr + 1 },
   st.insts.length)

/-- `Closure::bind`, `interpreter/closure.rs`: a *new* closure over a fresh
child of the captured environment, pre-populated with `this`. -/
def Closure.bind (st : St) (c : Closure) (instAddr : Nat) : St × Closure :=
  let (st, a) := allocEnv st ⟨[("this", Obj.Instance instAddr)], some c.env⟩
  (st, { c with env := a })

/-- `Instance::get`, `interpreter/class.rs`: fields first, then a class
method bound to this instance (`unreachable!()` for a non-closure method
table entry). -/
def instanceGet (st : St) (a : Nat) (name : String) :
    St × Except Err (Option Obj) :=
  let i := getInst st a
  match lookupAssoc i.fields name with
  | some v => (st, .ok (some v))
  | none =>
      match i.cls.method name with
      | some (.NativeFn clos) =>
          let (st, b) := Closure.bind st clos a
          (st, .ok (some (.NativeFn b)))
      | some _ => (st, .error .unreachableHit)
      | none => (st, .ok none)

/-- `Instance::set`, `interpreter/class.rs`: always writes the instance's own
field map. -/
def instanceSet (st : St) (a : Nat) (name : String) (v : Obj) : St :=
  let i := getInst st a
  { st with insts := st.insts.set a { i with fields := assocSet i.fields name v } }

/-- `Interpreter::lookup`, `interpreter/expr.rs`: distance-table hit walks
that many outer links from the current environment and reads locally;
otherwise the global environment is consulted. -/
def Interpreter.lookup (st : St) (name : Token) : Option Obj :=
  match lookupLocals st.locals name with
  | none => lookup_dict st st.globals name.lexeme
  | some dist =>
      (nth_outer st st.env dist).bind fun a => lookup_dict st a name.lexeme

/-- `Interpreter::assign_at`, `interpreter/expr.rs`. -/
def assign_at (st : St) (dist : Nat) (ident : String) (v : Obj) :
    St × Except Err Unit :=
  match nth_outer st st.env dist with
  | none => (st, .error (.distanceOutOfRange dist))
  | some a => (insert_val st a ident v, .ok ())

/-- `izip!(params, args).for_each(insert into interpreter.env)` of
`Closure::apply`: binds parameters to arguments in order (a later duplicate
parameter shadows an earlier one). -/
def bindArgs (st : St) (params : List Token) (args : List Obj) : St :=
  (params.zip args).foldl (fun st pa => insert_val st st.env pa.1.lexeme pa.2) st

/-- The tail of `Closure::apply` after the body ran: the interpreter's
environment is restored *before* the result is inspected; a `ReturnMarker`
becomes the call's value, other errors re-raise, and normal completion yields
`Nil` — except for initializers, which yield the bound `this`. -/
def finishApply (clos : Closure) (oldEnv : Nat) :
    St × Except Err Unit → St × Except Err Obj
  | (st, res) =>
      let st := { st with env := oldEnv }
      match res with
      | .error (.returnMarker v) => (st, .ok v)
      | .error e => (st, .error e)
      | .ok () =>
          if clos.is_init then
            match lookup_dict st clos.env "this" with
            | some v => (st, .ok v)
            | none => (st, .error .thisNotFound)
          else (st, .ok .Nil)

/-- Turn each method declaration of a class body into a closure capturing
`envAddr` (`init` methods marked as initializers), collected into the method
table; `interpreter/stmt.rs`, `Stmt::Class` arm.  (A non-`Fun` entry is
`unreachable!()` in the source — the parser never produces one — and is
skipped here.) -/
def buildMethods (methods : List Stmt) (envAddr : Nat) : List (String × Obj) :=
  methods.foldl
    (fun acc m =>
      match m with
      | .Fun name params body =>
          let clos : Closure :=
            ⟨some name.lexeme, params, body, envAddr, name.lexeme == "init"⟩
          assocSet acc name.lexeme (Obj.NativeFn clos)
      | _ => acc)
    []

/-- Sequencing for state-threading computations: state flows on, errors
short-circuit (but keep the state they stopped in, like a `&mut`
receiver). -/
def mbind {α β : Type} (x : St × Except Err α)
    (f : α → St → St × Except Err β) : St × Except Err β :=
  match x with
  | (st, .ok a) => f a st
  | (st, .error e) => (st, .error e)

/-- The interpreter's mutually recursive operations, tied off at a given
fuel level.  The fuel only bounds recursion depth: level 0 answers `noFuel`
everywhere, and each step adds one more level of real behaviour.  A single
structure recursed on `Nat` keeps every definition kernel-computable. -/
structure Interp where
  evalE : Expr → St → St × Except Err Obj
  evalArgs : List Expr → St → St × Except Err (List Obj)
  applyC : Closure → List Obj → St → St × Except Err Obj
  callC : ClassV → List Obj → Token → St → St × Except Err Obj
  execS : Stmt → St → St × Except Err Unit
  execStmts : List Stmt → St → St × Except Err Unit
  execWhile : Expr → Stmt → St → St × Except Err Unit

/-- Fuel level 0: out of fuel everywhere. -/
def interpZero : Interp where
  evalE := fun _ st => (st, .error .noFuel)
  evalArgs := fun _ st => (st, .error .noFuel)
  applyC := fun _ _ st => (st, .error .noFuel)
  callC := fun _ _ _ st => (st, .error .noFuel)
  execS := fun _ st => (st, .error .noFuel)
  execStmts := fun _ st => (st, .error .noFuel)
  execWhile := fun _ _ st => (st, .error .noFuel)

/-- One interpretation level on top of `I`: each operation is the body of
its Rust counterpart, with every (mutually) recursive call delegated to
`I`. -/
def interpStep (I : Interp) : Interp where
  evalE := fun e st =>
    match e with
    | .Assign name val =>
        let dist := lookupLocals st.locals name
        match Interpreter.lookup st name with
        | none => (st, .error (.assignUndefined name.pos name.lexeme))
        | some _ =>
            mbind (I.evalE val st) fun v st =>
              match dist with
              | some d =>
                  match assign_at st d name.lexeme v with
                  | (st, .ok ()) => (st, .ok v)
                  | (st, .error er) => (st, .error er)
              | none => (insert_val st st.globals name.lexeme v, .ok v)
    | .Binary lhs op rhs =>
        mbind (I.evalE lhs st) fun l st =>
        mbind (I.evalE rhs st) fun r st =>
          (st, binOp op.ty op.pos l r)
    | .Call callee args endTk =>
        mbind (I.evalE callee st) fun c st =>
        mbind (I.evalArgs args st) fun argv st =>
          match c with
          | .NativeFn clos => I.applyC clos argv st
          | .ForeignFn _ => (st, .error .foreignCall)
          | .Class cls => I.callC cls argv endTk st
          | obj => (st, .error (.notCallable endTk.pos obj))
    | .Get obj name =>
        mbind (I.evalE obj st) fun o st =>
          match o with
          | .Instance a =>
              match instanceGet st a name.lexeme with
              | (st, .ok (some v)) => (st, .ok v)
              | (st, .ok none) =>
                  (st, .error (.propertyUndefined name.pos name.lexeme))
              | (st, .error er) => (st, .error er)
          | o => (st, .error (.noProperties name.pos o))
    | .Grouping g => I.evalE g st
    | .Lambda params body =>
        (st, .ok (.NativeFn ⟨none, params, body, st.env, false⟩))
    | .Literal l => (st, .ok (litToObj l))
    | .Logical lhs op rhs =>
        match op.ty with
        | .And =>
            mbind (I.evalE lhs st) fun l st =>
              if l.to_bool then I.evalE rhs st else (st, .ok l)
        | .Or =>
            mbind (I.evalE lhs st) fun l st =>
              if l.to_bool then (st, .ok l) else I.evalE rhs st
        | _ => (st, .error .unreachableHit)
    | .Set obj name toV =>
        mbind (I.evalE obj st) fun o st =>
          match o with
          | .Instance a =>
              mbind (I.evalE toV st) fun v st =>
                (instanceSet st a name.lexeme v, .ok v)
          | o => (st, .error (.noProperties name.pos o))
    | .Super kw method =>
        match lookupLocals st.locals kw with
        | none => (st, .error (.superUndefined kw.pos))
        | some distance =>
            match nth_outer st st.env (distance - 1) with
            | none => (st, .error (.distanceOutOfRange (distance - 1)))
            | some this_env =>
                match lookup_dict st this_env "this" with
                | none => (st, .error (.thisUndefined kw.pos))
                | some thisV =>
                    match nth_outer st this_env 1 with
                    | none => (st, .error (.distanceOutOfRange distance))
                    | some sup_env =>
                        match lookup_dict st sup_env "super" with
                        | none => (st, .error (.superUndefined kw.pos))
                        | some sup =>
                            match thisV, sup with
                            | .Instance ia, .Class supC =>
                                match supC.method method.lexeme with
                                | none =>
                                    (st, .error (.propertyUndefined method.pos
                                      method.lexeme))
                                | some (.NativeFn clos) =>
                                    let (st, b) := Closure.bind st clos ia
                                    (st, .ok (.NativeFn b))
                                | some _ => (st, .error .unreachableHit)
                            | _, _ => (st, .error .unreachableHit)
    | .This kw =>
        match Interpreter.lookup st kw with
        | some v => (st, .ok v)
        | none => (st, .error (.thisUndefined kw.pos))
    | .Unary op rhs =>
        match op.ty with
        | .Bang =>
            mbind (I.evalE rhs st) fun v st => (st, .ok (.Bool (!v.to_bool)))
        | .Minus =>
            mbind (I.evalE rhs st) fun v st =>
              match tryConvNum v with
              | .ok n => (st, .ok (.Number (-n)))
              | .error _ => (st, .error (.unaryUndefined op.pos op.ty))
        | _ => (st, .error .unreachableHit)
    | .Variable name =>
        match Interpreter.lookup st name with
        | some v => (st, .ok v)
        | none => (st, .error (.varUndefined name.pos name.lexeme))
  evalArgs := fun es st =>
    match es with
    | [] => (st, .ok [])
    | e :: rest =>
        match I.evalE e st with
        | (st, .error er) => (st, .error er)
        | (st, .ok v) =>
            match I.evalArgs rest st with
            | (st, .ok vs) => (st, .ok (v :: vs))
            | (st, .error er) => (st, .error er)
  applyC := fun clos args st =>
    let oldEnv := st.env
    let (st1, a) := allocEnv st ⟨[], some clos.env⟩
    let st2 := { st1 with env := a }
    if clos.params.length ≠ args.length then
      (st2, .error (.arityMismatch clos.params.length args.length))
    else
      finishApply clos oldEnv (I.execStmts clos.body (bindArgs st2 clos.params args))
  callC := fun c args endTk st =>
    let (st1, ia) := allocInst st c
    match c.method "init" with
    | some (.NativeFn clos) =>
        let (st2, bound) := Closure.bind st1 clos ia
        match I.applyC bound args st2 with
        | (st3, .ok _) => (st3, .ok (.Instance ia))
        | (st3, .error e) => (st3, .error e)
    | some _ => (st1, .error .unreachableHit)
    | none =>
        if args.length ≠ 0 then
          (st1, .error (.classArity endTk.pos 0 args.length))
        else (st1, .ok (.Instance ia))
  execS := fun s st =>
    match s with
    | .Block stmts =>
        -- `let old_env = Gc::clone(env); self.env = Env::from_outer(env)…;
        -- stmts.try_for_each(…)?; self.env = old_env;`
        -- Note the `?`: on an error (including the break/continue/return
        -- markers) the restore is skipped.
        let old_env := st.env
        let (st1, a) := allocEnv st ⟨[], some st.env⟩
        let st2 := { st1 with env := a }
        match I.execStmts stmts st2 with
        | (st3, .ok ()) => ({ st3 with env := old_env }, .ok ())
        | (st3, .error e) => (st3, .error e)
    | .Class name superclass methods =>
        let env0 := st.env
        match superclass with
        | some supE =>
            match I.evalE supE st with
            | (st, .error e) => (st, .error e)
            | (st, .ok sup) =>
                match sup with
                | .Class supC =>
                    let (st, superEnv) :=
                      allocEnv st ⟨[("super", Obj.Class supC)], some env0⟩
                    let cls := ClassV.mk st.uidCtr name.lexeme (some supC)
                      (buildMethods methods superEnv)
                    let st := { st with uidCtr := st.uidCtr + 1 }
                    (insert_val st st.env name.lexeme (.Class cls), .ok ())
                | supObj =>
                    (st, .error (.nonClassSuperclass name.pos name.lexeme supObj))
        | none =>
            let cls := ClassV.mk st.uidCtr name.lexeme none
              (buildMethods methods env0)
            let st := { st with uidCtr := st.uidCtr + 1 }
            (insert_val st st.env name.lexeme (.Class cls), .ok ())
    | .Expression e =>
        match I.evalE e st with
        | (st, .ok _) => (st, .ok ())
        | (st, .error er) => (st, .error er)
    | .Fun name params body =>
        let clos : Closure := ⟨some name.lexeme, params, body, st.env, false⟩
        (insert_val st st.env name.lexeme (.NativeFn clos), .ok ())
    | .If cond then_stmt else_stmt =>
        match I.evalE cond st with
        | (st, .error e) => (st, .error e)
        | (st, .ok c) =>
            if c.to_bool then I.execS then_stmt st
            else
              match else_stmt with
              | some els => I.execS els st
              | none => (st, .ok ())
    | .Jump t =>
        match t.ty with
        | .Break => (st, .error .breakMarker)
        | .Continue => (st, .error .continueMarker)
        | _ => (st, .error .unreachableHit)
    | .Print e =>
        match I.evalE e st with
        | (st, .ok v) => ({ st with output := st.output ++ [v.display] }, .ok ())
        | (st, .error er) => (st, .error er)
    | .Return _ val =>
        match I.evalE (val.getD Expr.default) st with
        | (st, .ok v) => (st, .error (.returnMarker v))
        | (st, .error er) => (st, .error er)
    | .Var name init =>
        match I.evalE (init.getD Expr.default) st with
        | (st, .ok v) => (insert_val st st.env name.lexeme v, .ok ())
        | (st, .error er) => (st, .error er)
    | .While cond body => I.execWhile cond body st
  execStmts := fun stmts st =>
    match stmts with
    | [] => (st, .ok ())
    | s :: rest =>
        match I.execS s st with
        | (st, .ok ()) => I.execStmts rest st
        | (st, .error e) => (st, .error e)
  execWhile := fun cond body st =>
    match I.evalE cond st with
    | (st, .error e) => (st, .error e)
    | (st, .ok c) =>
        if c.to_bool then
          match I.execS body st with
          | (st, .error .breakMarker) => (st, .ok ())
          | (st, .error .continueMarker) => I.execWhile cond body st
          | (st, .error e) => (st, .error e)
          | (st, .ok ()) => I.execWhile cond body st
        else (st, .ok ())

/-- The interpreter at fuel `n`. -/
def interpN : Nat → Interp
  | 0 => interpZero
  | n + 1 => interpStep (interpN n)

/-- `Interpreter::eval`, `interpreter/expr.rs` (at the given fuel). -/
def evalE (fuel : Nat) (e : Expr) (st : St) : St × Except Err Obj :=
  (interpN fuel).evalE e st

/-- Left-to-right evaluation of a call's argument list
(`args.into_iter().map(eval).try_collect()`). -/
def evalArgs (fuel : Nat) (es : List Expr) (st : St) :
    St × Except Err (List Obj) :=
  (interpN fuel).evalArgs es st

/-- `Closure::apply`, `interpreter/closure.rs`: switch into a fresh child of
the captured environment, check arity (the mismatch error names both counts
and is raised *after* the switch, which the source never undoes on this
path), bind parameters in order, run the body, then restore the environment
and interpret the outcome. -/
def Closure.apply (fuel : Nat) (clos : Closure) (args : List Obj) (st : St) :
    St × Except Err Obj :=
  (interpN fuel).applyC clos args st

/-- The `Object::Class` branch of `Expr::Call` evaluation,
`interpreter/expr.rs` lines 99–116: construct the instance, run `init` (if
any) on it discarding its result, and yield the instance; with no `init`,
any argument is an arity error expecting 0. -/
def callClass (fuel : Nat) (c : ClassV) (args : List Obj) (endTk : Token)
    (st : St) : St × Except Err Obj :=
  (interpN fuel).callC c args endTk st

/-- `Interpreter::exec`, `interpreter/stmt.rs`. -/
def execS (fuel : Nat) (s : Stmt) (st : St) : St × Except Err Unit :=
  (interpN fuel).execS s st

/-- `Interpreter::exec_stmts`. -/
def execStmts (fuel : Nat) (stmts : List Stmt) (st : St) :
    St × Except Err Unit :=
  (interpN fuel).execStmts stmts st

/-- The `Stmt::While` loop of `interpreter/stmt.rs`. -/
def execWhile (fuel : Nat) (cond : Expr) (body : Stmt) (st : St) :
    St × Except Err Unit :=
  (interpN fuel).execWhile cond body st


/-! ## The `Env` of `src/`'s `interpreter/env.rs` (claim C4)

`src/`'s `env.rs` is a superseded iteration (`Arc<Mutex<_>>`-based, without
the `lookup_dict` the interpreter modules call); its `outer_nth` is embedded
here on a directly linked environment, exactly as written. -/

/-- `Env { dict, outer: Option<RcCell<Env>> }`, `interpreter/env.rs`. -/
inductive EnvT where
  | mk (dict : List (String × Obj)) (outer : Option EnvT)

/-- `Env::outer_nth`, `interpreter/env.rs` lines 30–33:
`iter::successors(self.outer.clone(), |outer| outer.lock().outer.clone()).nth(n)`.
The successors iterator is seeded with `self.outer`, so its element `n` lies
`n + 1` outer links away from `self`. -/
def EnvT.outer_nth : EnvT → Nat → Option EnvT
  | .mk _ none, _ => none
  | .mk _ (some o), 0 => some o
  | .mk _ (some o), n + 1 => o.outer_nth n

/-- The specification's words for the same operation (§4.1): "walk exactly
`n` outer links; returns none if the chain is shorter" — `n = 0` yields the
environment itself.  Stated separately, to be compared with
`EnvT.outer_nth`. -/
def EnvT.nth_outer_spec : EnvT → Nat → Option EnvT
  | e, 0 => some e
  | .mk _ none, _ + 1 => none
  | .mk _ (some o), n + 1 => o.nth_outer_spec n

/-! ## The static resolver (`resolver.rs`, `resolver/expr.rs`,
`resolver/stmt.rs`)

Embedded exactly as it stands in `src/`: in particular the
`Expr::Get/Set/Super/This` arms are `todo!()` (modelled as a distinguished
error, since `todo!()` panics), and the `Stmt::Class` arm never touches the
`superclass` field. -/

/-- `ResolutionState`, `resolver.rs`. -/
inductive ResolutionState where
  | Declared
  | Defined
  deriving DecidableEq, Repr

/-- `FunctionContextType`, `resolver.rs`. -/
inductive FunctionContextType where
  | Function
  | Initializer
  | Method
  deriving DecidableEq, Repr

/-- `ClassContextType`, `resolver.rs`. -/
inductive ClassContextType where
  | Class
  | Subclass
  deriving DecidableEq, Repr

/-- `JumpContext`, `resolver.rs`. -/
structure JumpContext where
  fun_ty : Option FunctionContextType
  in_loop : Bool
  deriving DecidableEq, Repr

/-- The `Resolver` state: scope stack (head = innermost, the Vec's last),
the distance table being populated (`interpreter.locals`), jump context and
class context. -/
structure RState where
  scopes : List (List (String × ResolutionState))
  locals : List (Token × Nat)
  jump_ctx : JumpContext
  class_ctx : Option ClassContextType
  deriving DecidableEq, Repr

/-- `Resolver::default()`. -/
def rInit : RState :=
  { scopes := [], locals := [], jump_ctx := ⟨none, false⟩, class_ctx := none }

/-- `Resolver::begin_scope`. -/
def beginScope (rs : RState) : RState :=
  { rs with scopes := [] :: rs.scopes }

/-- `Resolver::end_scope`. -/
def endScope (rs : RState) : RState :=
  { rs with scopes := rs.scopes.tail }

/-- `Resolver::set_state`: writes into the innermost scope; a no-op when the
scope stack is empty (the global level is not tracked). -/
def setState (rs : RState) (t : Token) (s : ResolutionState) : RState :=
  match rs.scopes with
  | [] => rs
  | inner :: rest => { rs with scopes := assocSet inner t.lexeme s :: rest }

/-- `Resolver::declare`. -/
def declare (rs : RState) (t : Token) : RState :=
  setState rs t .Declared

/-- `Resolver::define`. -/
def define (rs : RState) (t : Token) : RState :=
  setState rs t .Defined

/-- `Resolver::resolve_local`: find the innermost scope containing the name
(distance 0 = innermost) and record `(token, distance)`; record nothing when
no local scope has it (the name is then global). -/
def resolve_local (rs : RState) (name : Token) : RState :=
  match rs.scopes.findIdx? (fun scope => (lookupAssoc scope name.lexeme).isSome) with
  | some d => { rs with locals := assocSet rs.locals name d }
  | none => rs

/-- The resolver's mutually recursive operations, tied off at a given fuel
level (same kernel-computability device as `Interp`). -/
structure Resolv where
  resolveExpr : Expr → RState → Except Err RState
  resolveExprs : List Expr → RState → Except Err RState
  resolveLambda : JumpContext → List Token → List Stmt → RState → Except Err RState
  resolveLambdaE : List Token → List Stmt → RState → Except Err RState
  resolveStmt : Stmt → RState → Except Err RState
  resolveMethods : List Stmt → RState → Except Err RState
  resolveStmts : List Stmt → RState → Except Err RState

/-- Fuel level 0: out of fuel everywhere. -/
def resolvZero : Resolv where
  resolveExpr := fun _ _ => .error .noFuel
  resolveExprs := fun _ _ => .error .noFuel
  resolveLambda := fun _ _ _ _ => .error .noFuel
  resolveLambdaE := fun _ _ _ => .error .noFuel
  resolveStmt := fun _ _ => .error .noFuel
  resolveMethods := fun _ _ => .error .noFuel
  resolveStmts := fun _ _ => .error .noFuel

/-- One resolution level on top of `R`: each operation is the body of its
Rust counterpart, with every (mutually) recursive call delegated to `R`. -/
def resolvStep (R : Resolv) : Resolv where
  resolveExpr := fun e rs =>
    match e with
    | .Assign name val =>
        match R.resolveExpr val rs with
        | .ok rs => .ok (resolve_local rs name)
        | .error er => .error er
    | .Binary lhs _ rhs =>
        match R.resolveExpr lhs rs with
        | .ok rs => R.resolveExpr rhs rs
        | .error er => .error er
    | .Logical lhs _ rhs =>
        match R.resolveExpr lhs rs with
        | .ok rs => R.resolveExpr rhs rs
        | .error er => .error er
    | .Call callee args _ =>
        match R.resolveExpr callee rs with
        | .ok rs => R.resolveExprs args rs
        | .error er => .error er
    | .Get _ _ => .error (.todoUnimplemented "resolve Expr::Get")
    | .Grouping inner => R.resolveExpr inner rs
    | .Lambda params body => R.resolveLambdaE params body rs
    | .Literal _ => .ok rs
    | .Set _ _ _ => .error (.todoUnimplemented "resolve Expr::Set")
    | .Super _ _ => .error (.todoUnimplemented "resolve Expr::Super")
    | .This _ => .error (.todoUnimplemented "resolve Expr::This")
    | .Unary _ rhs => R.resolveExpr rhs rs
    | .Variable tk =>
        match rs.scopes.head? with
        | some inner =>
            match lookupAssoc inner tk.lexeme with
            | some .Declared => .error (.semanticSelfRef tk.pos tk.lexeme)
            | _ => .ok (resolve_local rs tk)
        | none => .ok (resolve_local rs tk)
  resolveExprs := fun es rs =>
    match es with
    | [] => .ok rs
    | e :: rest =>
        match R.resolveExpr e rs with
        | .ok rs => R.resolveExprs rest rs
        | .error er => .error er
  resolveLambda := fun ctx params body rs =>
    let old_ctx := rs.jump_ctx
    let rs := { rs with jump_ctx := ctx }
    let rs := beginScope rs
    let rs := params.foldl (fun rs p => define (declare rs p) p) rs
    match R.resolveStmts body rs with
    | .ok rs => .ok { endScope rs with jump_ctx := old_ctx }
    | .error er => .error er
  resolveLambdaE := fun params body rs =>
    let rs := beginScope rs
    let rs := params.foldl (fun rs p => define (declare rs p) p) rs
    match R.resolveStmts body rs with
    | .ok rs => .ok (endScope rs)
    | .error er => .error er
  resolveStmt := fun s rs =>
    match s with
    | .Block stmts =>
        match R.resolveStmts stmts (beginScope rs) with
        | .ok rs => .ok (endScope rs)
        | .error er => .error er
    | .Class name _superclass methods =>
        let old_ctx := rs.class_ctx
        let rs := { rs with class_ctx := some .Class }
        let rs := define (declare rs name) name
        let rs := beginScope rs
        let rs :=
          { rs with scopes :=
              match rs.scopes with
              | inner :: rest => assocSet inner "this" ResolutionState.Defined :: rest
              | [] => [] }
        match R.resolveMethods methods rs with
        | .ok rs => .ok { endScope rs with class_ctx := old_ctx }
        | .error er => .error er
    | .Expression e => R.resolveExpr e rs
    | .Fun name params body =>
        let rs := define (declare rs name) name
        R.resolveLambda ⟨some .Function, false⟩ params body rs
    | .If cond then_stmt else_stmt =>
        match R.resolveExpr cond rs with
        | .error er => .error er
        | .ok rs =>
            match R.resolveStmt then_stmt rs with
            | .error er => .error er
            | .ok rs =>
                match else_stmt with
                | some els => R.resolveStmt els rs
                | none => .ok rs
    | .Jump kw =>
        if rs.jump_ctx.in_loop then .ok rs
        else .error (.semanticJumpOutOfLoop kw.pos kw.lexeme)
    | .Print e => R.resolveExpr e rs
    | .Return kw val =>
        if rs.jump_ctx.fun_ty.isNone then
          .error (.semanticReturnOutOfFun kw.pos)
        else if rs.jump_ctx.fun_ty == some .Initializer && val.isSome then
          .error (.semanticReturnValInInit kw.pos)
        else
          match val with
          | some v => R.resolveExpr v rs
          | none => .ok rs
    | .Var name init =>
        let rs := declare rs name
        match init with
        | some i =>
            match R.resolveExpr i rs with
            | .ok rs => .ok (define rs name)
            | .error er => .error er
        | none => .ok (define rs name)
    | .While cond body =>
        let old_in_loop := rs.jump_ctx.in_loop
        let rs := { rs with jump_ctx := { rs.jump_ctx with in_loop := true } }
        match R.resolveExpr cond rs with
        | .error er => .error er
        | .ok rs =>
            match R.resolveStmt body rs with
            | .error er => .error er
            | .ok rs =>
                .ok { rs with jump_ctx := { rs.jump_ctx with in_loop := old_in_loop } }
  resolveMethods := fun methods rs =>
    match methods with
    | [] => .ok rs
    | .Fun name params body :: rest =>
        let fun_ty : FunctionContextType :=
          if name.lexeme == "init" then .Initializer else .Method
        match R.resolveLambda ⟨some fun_ty, false⟩ params body rs with
        | .ok rs => R.resolveMethods rest rs
        | .error er => .error er
    | _ :: _ => .error .unreachableHit
  resolveStmts := fun stmts rs =>
    match stmts with
    | [] => .ok rs
    | s :: rest =>
        match R.resolveStmt s rs with
        | .ok rs => R.resolveStmts rest rs
        | .error er => .error er

/-- The resolver at fuel `n`. -/
def resolvN : Nat → Resolv
  | 0 => resolvZero
  | n + 1 => resolvStep (resolvN n)

/-- `Resolver::resolve_expr`, `resolver/expr.rs`.  The `Get`, `Set`, `Super`
and `This` arms are `todo!()` in `src/`. -/
def resolveExpr (fuel : Nat) (e : Expr) (rs : RState) : Except Err RState :=
  (resolvN fuel).resolveExpr e rs

/-- Resolve a list of expressions in order (`try_for_each`). -/
def resolveExprs (fuel : Nat) (es : List Expr) (rs : RState) :
    Except Err RState :=
  (resolvN fuel).resolveExprs es rs

/-- `Resolver::resolve_lambda` (the `resolver.rs` version taking a
`JumpContext`). -/
def resolveLambda (fuel : Nat) (ctx : JumpContext) (params : List Token)
    (body : List Stmt) (rs : RState) : Except Err RState :=
  (resolvN fuel).resolveLambda ctx params body rs

/-- `Resolver::resolve_lambda` (the two-argument `resolver/expr.rs` version
used by `Expr::Lambda`): no jump-context switch. -/
def resolveLambdaE (fuel : Nat) (params : List Token) (body : List Stmt)
    (rs : RState) : Except Err RState :=
  (resolvN fuel).resolveLambdaE params body rs

/-- `Resolver::resolve_stmt`, `resolver/stmt.rs`.  Note that the
`Stmt::Class` arm of `src/` destructures `superclass` but never resolves or
checks it. -/
def resolveStmt (fuel : Nat) (s : Stmt) (rs : RState) : Except Err RState :=
  (resolvN fuel).resolveStmt s rs

/-- The per-method loop of the `Stmt::Class` arm. -/
def resolveMethods (fuel : Nat) (methods : List Stmt) (rs : RState) :
    Except Err RState :=
  (resolvN fuel).resolveMethods methods rs

/-- `Resolver::resolve`: resolve a whole program
(`try_for_each(resolve_stmt)`). -/
def resolveStmts (fuel : Nat) (stmts : List Stmt) (rs : RState) :
    Except Err RState :=
  (resolvN fuel).resolveStmts stmts rs


/-! ## Concrete fixtures used by the claims -/

/-- An identifier token. -/
def idTok (s : String) (p : Pos) : Token := ⟨.Identifier, s, p⟩

/-- A string literal expression. -/
def strLit (s : String) : Expr := .Literal (.Str s)

/-- Modelled from the spec: `Interpreter::default` is not under `src/` (its
uses in `run.rs` are commented out); per §6 the host supplies a global
environment, which here is empty — no built-in binding is relevant to the
claims.  One (global) environment that is both `env` and `globals`, with the
given distance table. -/
def initSt (locals : List (Token × Nat)) : St :=
  { envs := [⟨[], none⟩], insts := [], env := 0, globals := 0,
    locals := locals, uidCtr := 0, output := [] }

/-- Execute a statement list, then evaluate one expression (the REPL shape
`exec_stmts` + `eval` used by every scenario below). -/
def runProg (fuel : Nat) (stmts : List Stmt) (e : Expr) (st : St) :
    St × Except Err Obj :=
  match execStmts fuel stmts st with
  | (st, .ok ()) => evalE fuel e st
  | (st, .error er) => (st, .error er)

/-- The `super` token of the call site inside `B.test` (claim C1). -/
def superTok : Token := ⟨.Super, "super", (4, 20)⟩

/-- `class A { method() { return "A method"; } }`. -/
def classA : Stmt :=
  .Class (idTok "A" (1, 7)) none
    [.Fun (idTok "method" (1, 11)) []
      [.Return ⟨.Return, "return", (1, 22)⟩ (some (strLit "A method"))]]

/-- `class B < A { method() { return "B method"; }
test() { return super.method(); } }`. -/
def classB : Stmt :=
  .Class (idTok "B" (2, 7)) (some (.Variable (idTok "A" (2, 11))))
    [.Fun (idTok "method" (3, 5)) []
      [.Return ⟨.Return, "return", (3, 16)⟩ (some (strLit "B method"))],
     .Fun (idTok "test" (4, 5)) []
      [.Return ⟨.Return, "return", (4, 13)⟩
        (some (.Call (.Super superTok (idTok "method" (4, 26))) []
          ⟨.RightParen, ")", (4, 34)⟩))]]

/-- `class C < B {}`. -/
def classC : Stmt :=
  .Class (idTok "C" (5, 7)) (some (.Variable (idTok "B" (5, 11)))) []

/-- `C().test()`. -/
def c1Call : Expr :=
  .Call
    (.Get (.Call (.Variable (idTok "C" (6, 1))) [] ⟨.RightParen, ")", (6, 3)⟩)
      (idTok "test" (6, 5)))
    [] ⟨.RightParen, ")", (6, 10)⟩

/-- Modelled from the spec: the distance table for the super-dispatch
scenario.  The resolver's `Expr::Super` arm is `todo!()` in `src/`
(`resolver/expr.rs` line 30); per §4.2 the completed resolver records, for
the `super` token in `B.test`, the number of scopes between the call site
and the scope binding `super` — method scope (0), `this` scope (1), `super`
scope (2).  No other token of the scenario resolves locally (all class names
are global). -/
def c1Locals : List (Token × Nat) := [(superTok, 2)]

/-- Resolve-then-evaluate of `C().test()` after the three class
declarations. -/
def c1Run : St × Except Err Obj :=
  runProg 32 [classA, classB, classC] c1Call (initSt c1Locals)

/-- `B().test()` — same call on a `B` instance (the dispatch must not depend
on the receiver's runtime class). -/
def c1CallB : Expr :=
  .Call
    (.Get (.Call (.Variable (idTok "B" (7, 1))) [] ⟨.RightParen, ")", (7, 3)⟩)
      (idTok "test" (7, 5)))
    [] ⟨.RightParen, ")", (7, 10)⟩

/-- Resolve-then-evaluate of `B().test()` after the three class
declarations. -/
def c1RunB : St × Except Err Obj :=
  runProg 32 [classA, classB, classC] c1CallB (initSt c1Locals)

end Dolores


namespace Dolores

/-- `class A < A {}` (claim C3). -/
def selfInheritClass : Stmt :=
  .Class (idTok "A" (1, 7)) (some (.Variable (idTok "A" (1, 11)))) []

/-- `{ break; }` (claim C2). -/
def blockBreak : Stmt := .Block [.Jump ⟨.Break, "break", (1, 3)⟩]

/-- `{ var b = 2; }` — a block that completes normally (claim C2). -/
def blockNormal : Stmt :=
  .Block [.Var (idTok "b" (1, 7)) (some (.Literal (.Number 2)))]

/-- `class C { init() { return; } }` (claim C5). -/
def classCInit : Stmt :=
  .Class (idTok "C" (1, 7)) none
    [.Fun (idTok "init" (1, 11)) []
      [.Return ⟨.Return, "return", (1, 20)⟩ none]]

/-- `C()` (claim C5). -/
def c5Call : Expr :=
  .Call (.Variable (idTok "C" (2, 1))) [] ⟨.RightParen, ")", (2, 3)⟩

/-- `var a = 1; { var a = a; }` (claim C6). -/
def c6Prog : List Stmt :=
  [.Var (idTok "a" (1, 5)) (some (.Literal (.Number 1))),
   .Block [.Var (idTok "a" (1, 18)) (some (.Variable (idTok "a" (1, 22))))]]

/-- `var a = 1; { var a = 2; }` — same shape without the self-reference
(claim C6). -/
def c6ProgOk : List Stmt :=
  [.Var (idTok "a" (1, 5)) (some (.Literal (.Number 1))),
   .Block [.Var (idTok "a" (1, 18)) (some (.Literal (.Number 2)))]]

/-- `fun f() { var x = 1; while (true) { break; } return x; }` — the
function-level consequence of the missing environment restore (claim C2):
after `break` escapes the loop-body block, `self.env` is still the block's
child, so the distance-0 read of `x` misses. -/
def funF : Stmt :=
  .Fun (idTok "f" (1, 5)) []
    [.Var (idTok "x" (2, 7)) (some (.Literal (.Number 1))),
     .While (.Literal (.Bool true)) (.Block [.Jump ⟨.Break, "break", (3, 3)⟩]),
     .Return ⟨.Return, "return", (4, 3)⟩ (some (.Variable (idTok "x" (4, 10))))]

/-- `f()`. -/
def fCall : Expr :=
  .Call (.Variable (idTok "f" (5, 1))) [] ⟨.RightParen, ")", (5, 3)⟩

/-- The distance table the resolver computes for `funF`: only the read of
`x` in the `return` resolves locally, at distance 0. -/
def c2Locals : List (Token × Nat) := [(idTok "x" (4, 10), 0)]

/-! ## Association-list and environment lemmas (used for the arity claim) -/

theorem lookupAssoc_cons {α : Type} (a : String) (b : α)
    (rest : List (String × α)) (k : String) :
    lookupAssoc ((a, b) :: rest) k
      = if a == k then some b else lookupAssoc rest k := by
  by_cases h : a == k <;> simp [lookupAssoc, List.find?_cons, h]

theorem lookupAssoc_assocSet_self {α : Type} (l : List (String × α))
    (k : String) (v : α) : lookupAssoc (assocSet l k v) k = some v := by
  induction l with
  | nil => simp [assocSet, lookupAssoc_cons, lookupAssoc]
  | cons p rest ih =>
      obtain ⟨a, b⟩ := p
      by_cases h : a = k
      · subst h
        simp [assocSet, lookupAssoc_cons]
      · simp [assocSet, h, lookupAssoc_cons, ih]

theorem lookupAssoc_assocSet_ne {α : Type} (l : List (String × α))
    (k k' : String) (v : α) (h : k' ≠ k) :
    lookupAssoc (assocSet l k v) k' = lookupAssoc l k' := by
  induction l with
  | nil => simp [assocSet, lookupAssoc_cons, lookupAssoc, Ne.symm h]
  | cons p rest ih =>
      obtain ⟨a, b⟩ := p
      by_cases ha : a = k
      · subst ha
        simp [assocSet, lookupAssoc_cons, Ne.symm h]
      · simp [assocSet, ha, lookupAssoc_cons, ih]

theorem insert_val_env (st : St) (e : Nat) (k : String) (v : Obj) :
    (insert_val st e k v).env = st.env := rfl

theorem insert_val_envs_length (st : St) (e : Nat) (k : String) (v : Obj) :
    (insert_val st e k v).envs.length = st.envs.length := by
  simp [insert_val]

theorem getEnv_insert_val_self (st : St) (e : Nat) (k : String) (v : Obj)
    (h : e < st.envs.length) :
    getEnv (insert_val st e k v) e
      = { getEnv st e with dict := assocSet (getEnv st e).dict k v } := by
  simp [insert_val, getEnv, List.getD_eq_getElem?_getD,
    List.getElem?_set_eq_of_lt _ h]

theorem lookup_dict_insert_self (st : St) (e : Nat) (k : String) (v : Obj)
    (h : e < st.envs.length) :
    lookup_dict (insert_val st e k v) e k = some v := by
  rw [lookup_dict, getEnv_insert_val_self st e k v h]
  exact lookupAssoc_assocSet_self ..

theorem lookup_dict_insert_ne (st : St) (e : Nat) (k q : String) (v : Obj)
    (h : e < st.envs.length) (hq : q ≠ k) :
    lookup_dict (insert_val st e k v) e q = lookup_dict st e q := by
  rw [lookup_dict, getEnv_insert_val_self st e k v h, lookup_dict]
  exact lookupAssoc_assocSet_ne _ _ _ _ hq

theorem bindArgs_cons (st : St) (p : Token) (ps : List Token) (a : Obj)
    (args : List Obj) :
    bindArgs st (p :: ps) (a :: args)
      = bindArgs (insert_val st st.env p.lexeme a) ps args := rfl

theorem bindArgs_env : ∀ (ps : List Token) (args : List Obj) (st : St),
    (bindArgs st ps args).env = st.env := by
  intro ps
  induction ps with
  | nil => intro args st; rfl
  | cons p ps ih =>
      intro args st
      cases args with
      | nil => rfl
      | cons a args =>
          rw [bindArgs_cons, ih, insert_val_env]

theorem bindArgs_envs_length : ∀ (ps : List Token) (args : List Obj) (st : St),
    (bindArgs st ps args).envs.length = st.envs.length := by
  intro ps
  induction ps with
  | nil => intro args st; rfl
  | cons p ps ih =>
      intro args st
      cases args with
      | nil => rfl
      | cons a args =>
          rw [bindArgs_cons, ih, insert_val_envs_length]

/-- Binds already made for a name not among the remaining parameters are
left intact by the rest of the fold. -/
theorem bindArgs_lookup_preserved :
    ∀ (ps : List Token) (args : List Obj) (st : St) (q : String),
    q ∉ ps.map Token.lexeme → st.env < st.envs.length →
    lookup_dict (bindArgs st ps args) st.env q = lookup_dict st st.env q := by
  intro ps
  induction ps with
  | nil => intro args st q _ _; rfl
  | cons p ps ih =>
      intro args st q hq henv
      cases args with
      | nil => rfl
      | cons a args =>
          rw [bindArgs_cons]
          have hq1 : q ≠ p.lexeme := by
            intro hc
            exact hq (by simp [hc])
          have hq2 : q ∉ ps.map Token.lexeme := by
            intro hc
            exact hq (by simp [hc])
          have henv1 : (insert_val st st.env p.lexeme a).env
              < (insert_val st st.env p.lexeme a).envs.length := by
            rw [insert_val_env, insert_val_envs_length]
            exact henv
          have hstep := ih args (insert_val st st.env p.lexeme a) q hq2 henv1
          rw [insert_val_env] at hstep
          rw [hstep]
          exact lookup_dict_insert_ne st st.env p.lexeme q a henv hq1

/-! ## Claim theorems -/

/-- C1: super-dispatch is static and lexical.  With classes `A` (defining
`method`), `B < A` (overriding `method` and defining `test`, which calls
`super.method()`), and `C < B` with no overrides, resolving and then
evaluating `C().test()` yields the result of `A.method` — the string
`"A method"`, not `B`'s override — and so does `B().test()`: the result does
not depend on the receiver's runtime class.  The `super` token's binding distance (2) is the lexical one of the
call site in `B.test`, and the interpreter's `Expr::Super` arm binds `A`'s
method to the current `this`. -/
theorem c1_static_super_dispatch :
    c1Run.2 = .ok (.Str "A method")
      ∧ c1RunB.2 = .ok (.Str "A method")
      ∧ c1Run.2 ≠ .ok (.Str "B method") := by
  refine ⟨rfl, rfl, ?_⟩
  intro h
  rw [show c1Run.2 = .ok (.Str "A method") from rfl] at h
  injection h with h
  injection h with h
  simp at h

/-- C2: the claim says the block's child environment is discarded on *every*
exit.  The code (`interpreter/stmt.rs`, `Stmt::Block` arm) restores
`self.env` only on normal completion: the `?` on `try_for_each` returns
before the restore, so after a block exits via a `break` signal the
interpreter is still inside the child environment (address 1, not the
original 0).  Consequence, third conjunct: `fun f() { var x = 1;
while (true) { break; } return x; }` resolves fine (the `return x` read at
distance 0), but `f()` fails at runtime with an undefined-identifier error
for `x` instead of returning 1, because the distance-0 read happens in the
leaked child environment. -/
theorem c2_block_env_not_restored_on_signal :
    ((execS 8 blockBreak (initSt [])).2 = .error .breakMarker
      ∧ (execS 8 blockBreak (initSt [])).1.env = 1
      ∧ (initSt []).env = 0)
    ∧ (execS 8 blockNormal (initSt [])).1.env = (initSt []).env
    ∧ resolveStmts 32 [funF] rInit = .ok { rInit with locals := c2Locals }
    ∧ (runProg 64 [funF] fCall (initSt c2Locals)).2 =
        .error (.varUndefined (4, 10) "x") :=
  ⟨⟨rfl, rfl, rfl⟩, rfl, rfl, rfl⟩

/-- C3: the claim says the resolver resolves the superclass clause and
rejects `class A < A {}` with a semantic self-inheritance error before
execution.  The `Stmt::Class` arm of `src/`'s `resolver/stmt.rs`
destructures `superclass` but never resolves or checks it: resolution of
`class A < A {}` succeeds (returning the unchanged resolver state), and the
failure only appears at execution time, as a *runtime* "identifier `A` is
undefined" error from evaluating the superclass expression — not the
semantic self-inheritance error the claim (and the repository's own test
`class_super_rec`, which expects "cannot inherit from itself") requires. -/
theorem c3_self_inheritance_not_rejected :
    resolveStmts 16 [selfInheritClass] rInit = .ok rInit
      ∧ (execS 16 selfInheritClass (initSt [])).2 =
          .error (.varUndefined (1, 11) "A") :=
  ⟨rfl, rfl⟩

/-- C4: the claim says `nth_outer(env, n)` walks exactly `n` outer links
(`n = 0` yielding `env` itself).  The `Env::outer_nth` in `src/`'s
`interpreter/env.rs` seeds its `iter::successors` with `self.outer`, so it
walks `n + 1` links: on an environment with no outer, `outer_nth 0` is
`none` where the spec demands the environment itself; on a chain `e₁ → e₀`,
`outer_nth e₁ 0` is `e₀`.  Third conjunct: in general the source function
equals the spec's walk at `n + 1`. -/
theorem c4_outer_nth_off_by_one :
    (EnvT.outer_nth (.mk [] none) 0 = none
      ∧ EnvT.nth_outer_spec (.mk [] none) 0 = some (.mk [] none))
    ∧ EnvT.outer_nth (.mk [] (some (.mk [] none))) 0 = some (.mk [] none)
    ∧ ∀ (e : EnvT) (n : Nat),
        EnvT.outer_nth e n = EnvT.nth_outer_spec e (n + 1) := by
  refine ⟨⟨rfl, rfl⟩, rfl, ?_⟩
  intro e n
  induction n generalizing e with
  | zero => cases e with
    | mk d o => cases o <;> simp [EnvT.outer_nth, EnvT.nth_outer_spec]
  | succ n ih => cases e with
    | mk d o =>
        cases o with
        | none => rfl
        | some o' => exact ih o'

/-- C5: calling a class constructs an instance, runs `init` (if present)
with the arguments, discards the initializer's result and yields the
instance.  First conjunct: whenever the `Object::Class` call branch
succeeds, its value is the freshly allocated `Instance` (never `Nil` or the
initializer's return value).  Second/third conjuncts: for
`class C { init() { return; } }`, evaluating `C()` yields the instance at
address 0, whose class is `C`. -/
theorem c5_class_call_yields_instance :
    (∀ (fuel : Nat) (st : St) (c : ClassV) (args : List Obj) (endTk : Token)
        (st' : St) (o : Obj),
        callClass (fuel + 1) c args endTk st = (st', .ok o) →
        o = .Instance st.insts.length)
    ∧ (runProg 32 [classCInit] c5Call (initSt [])).2 = .ok (.Instance 0)
    ∧ ((runProg 32 [classCInit] c5Call (initSt [])).1.insts.map
        (fun i => i.cls.name)) = ["C"] := by
  refine ⟨?_, rfl, rfl⟩
  intro fuel st c args endTk st' o h
  simp only [callClass, interpN, interpStep, allocInst] at h
  split at h
  · split at h
    · injection h with h1 h2
      injection h2 with h3
      exact h3.symm
    · injection h with h1 h2
      exact Except.noConfusion h2
  · injection h with h1 h2
    exact Except.noConfusion h2
  · split at h
    · injection h with h1 h2
      exact Except.noConfusion h2
    · injection h with h1 h2
      injection h2 with h3
      exact h3.symm

/-- C5 witness: the hypotheses of the universally quantified conjunct are
satisfiable — instantiated at a concrete class with no `init`. -/
theorem c5_witness :
    Obj.Instance 0 = Obj.Instance ((initSt []).insts.length) :=
  c5_class_call_yields_instance.1 4 (initSt []) (ClassV.mk 7 "K" none []) []
    ⟨.RightParen, ")", (1, 1)⟩
    { initSt [] with insts := [⟨0, .mk 7 "K" none [], []⟩], uidCtr := 1 }
    (.Instance 0) rfl

/-- C6: a `var` declaration declares, then resolves its initializer, then
defines; reading a name that is `Declared` but not `Defined` in the
innermost scope is a semantic error.  First conjunct: the general rule, for
any resolver state whose innermost scope holds the name as `Declared`.
Second: `var a = 1; { var a = a; }` fails resolution with exactly the
self-reference error at the offending read.  Third: the same program with a
non-self-referential initializer resolves. -/
theorem c6_self_reference_in_own_initializer :
    (∀ (fuel : Nat) (rs : RState) (tk : Token)
        (inner : List (String × ResolutionState))
        (rest : List (List (String × ResolutionState))),
        rs.scopes = inner :: rest →
        lookupAssoc inner tk.lexeme = some .Declared →
        resolveExpr (fuel + 1) (.Variable tk) rs =
          .error (.semanticSelfRef tk.pos tk.lexeme))
    ∧ resolveStmts 16 c6Prog rInit = .error (.semanticSelfRef (1, 22) "a")
    ∧ resolveStmts 16 c6ProgOk rInit = .ok rInit := by
  refine ⟨?_, rfl, rfl⟩
  intro fuel rs tk inner rest hscopes hdecl
  simp only [resolveExpr, resolvN, resolvStep, hscopes, List.head?, hdecl]

/-- C6 witness: the general conjunct applied at a concrete state whose
innermost scope holds `"a"` as `Declared`. -/
theorem c6_witness :
    resolveExpr 1 (.Variable (idTok "a" (1, 22)))
        { rInit with scopes := [[("a", .Declared)]] } =
      .error (.semanticSelfRef (1, 22) "a") :=
  c6_self_reference_in_own_initializer.1 0
    { rInit with scopes := [[("a", .Declared)]] }
    (idTok "a" (1, 22)) [("a", .Declared)] [] rfl rfl

/-- C7: closure arity.  First conjunct: applying a closure of arity `n` to
`m ≠ n` arguments fails with the arity-mismatch runtime error carrying both
counts (`expected = n`, `got = m`).  Second: when the counts match, the
check passes and `Closure::apply` proceeds to execute the body in a fresh
child of the captured environment with the parameters bound to the
arguments in order (`bindArgs`).  Third: with distinct parameter names, the
environment the body starts in maps the `i`-th parameter to the `i`-th
argument. -/
theorem c7_closure_arity_mismatch :
    (∀ (fuel : Nat) (clos : Closure) (args : List Obj) (st : St),
        clos.params.length ≠ args.length →
        (Closure.apply (fuel + 1) clos args st).2 =
          .error (.arityMismatch clos.params.length args.length))
    ∧ (∀ (fuel : Nat) (clos : Closure) (args : List Obj) (st : St),
        clos.params.length = args.length →
        Closure.apply (fuel + 1) clos args st =
          finishApply clos st.env
            (execStmts fuel clos.body
              (bindArgs
                { st with envs := st.envs ++ [⟨[], some clos.env⟩],
                          env := st.envs.length }
                clos.params args)))
    ∧ (∀ (st : St) (ps : List Token) (args : List Obj) (i : Nat)
        (hlen : ps.length = args.length)
        (hnd : (ps.map Token.lexeme).Nodup)
        (henv : st.env < st.envs.length) (hi : i < ps.length),
        lookup_dict (bindArgs st ps args) st.env (ps.get ⟨i, hi⟩).lexeme
          = some (args.get ⟨i, hlen ▸ hi⟩)) := by
  refine ⟨?_, ?_, ?_⟩
  · intro fuel clos args st h
    simp only [Closure.apply, interpN, interpStep, allocEnv]
    rw [if_pos h]
  · intro fuel clos args st h
    simp only [Closure.apply, interpN, interpStep, allocEnv, execStmts]
    rw [if_neg (fun hc => hc h)]
  · intro st ps
    induction ps generalizing st with
    | nil =>
        intro args i hlen hnd henv hi
        exact absurd hi (by simp)
    | cons p ps ih =>
        intro args i hlen hnd henv hi
        cases args with
        | nil => simp at hlen
        | cons a args =>
            rw [bindArgs_cons]
            have henv1 : (insert_val st st.env p.lexeme a).env
                < (insert_val st st.env p.lexeme a).envs.length := by
              rw [insert_val_env, insert_val_envs_length]
              exact henv
            cases i with
            | zero =>
                have hnotin : p.lexeme ∉ ps.map Token.lexeme :=
                  (List.nodup_cons.mp (by simpa using hnd)).1
                have hpres := bindArgs_lookup_preserved ps args
                  (insert_val st st.env p.lexeme a) p.lexeme hnotin henv1
                rw [insert_val_env] at hpres
                rw [show ((p :: ps).get ⟨0, hi⟩).lexeme = p.lexeme from rfl]
                rw [hpres]
                exact lookup_dict_insert_self st st.env p.lexeme a henv
            | succ i =>
                have hlen' : ps.length = args.length := by simpa using hlen
                have hnd' : (ps.map Token.lexeme).Nodup :=
                  (List.nodup_cons.mp (by simpa using hnd)).2
                have hi' : i < ps.length := by simpa using hi
                have hih := ih (insert_val st st.env p.lexeme a) args i
                  hlen' hnd' henv1 hi'
                rw [insert_val_env] at hih
                exact hih

/-- C7 witness: both quantified conjuncts at concrete inputs — a two-
parameter closure applied to one argument fails with `arityMismatch 2 1`,
and binding `[j, k] ↦ [2, 3]` lets the body read `j` as 2. -/
theorem c7_witness :
    (Closure.apply 2 ⟨some "f", [idTok "j" (1, 1), idTok "k" (1, 2)], [], 0,
        false⟩ [.Number 2] (initSt [])).2 =
      .error (.arityMismatch 2 1)
    ∧ lookup_dict
        (bindArgs (initSt []) [idTok "j" (1, 1), idTok "k" (1, 2)]
          [.Number 2, .Number 3])
        (initSt []).env
        ((([idTok "j" (1, 1), idTok "k" (1, 2)] : List Token).get
          ⟨0, by decide⟩).lexeme)
      = some (([Obj.Number 2, Obj.Number 3] : List Obj).get ⟨0, by decide⟩) :=
  ⟨c7_closure_arity_mismatch.1 1
      ⟨some "f", [idTok "j" (1, 1), idTok "k" (1, 2)], [], 0, false⟩
      [.Number 2] (initSt []) (by decide),
   c7_closure_arity_mismatch.2.2 (initSt [])
      [idTok "j" (1, 1), idTok "k" (1, 2)] [.Number 2, .Number 3] 0
      (by decide) (by decide) (by decide) (by decide)⟩

/-- C8: the binary `+` dispatch.  In order: both strings concatenate; a
string on either side concatenates with the other operand's `Display`
rendering; two numeric operands (`Number` or `Bool`, booleans coerced to 0/1
by `asNum`, the embedded `TryFrom<&Object> for f64`) yield the numeric sum;
every other combination yields the runtime error carrying the operator and
both operands. -/
theorem c8_plus_operator_dispatch :
    (∀ (pos : Pos) (s s' : String),
        binOp .Plus pos (.Str s) (.Str s') = .ok (.Str (s ++ s')))
    ∧ (∀ (pos : Pos) (s : String) (rhs : Obj),
        (∀ t, rhs ≠ .Str t) →
        binOp .Plus pos (.Str s) rhs = .ok (.Str (s ++ rhs.display)))
    ∧ (∀ (pos : Pos) (lhs : Obj) (s : String),
        (∀ t, lhs ≠ .Str t) →
        binOp .Plus pos lhs (.Str s) = .ok (.Str (lhs.display ++ s)))
    ∧ (∀ (pos : Pos) (lhs rhs : Obj) (a b : Rat),
        asNum lhs = some a → asNum rhs = some b →
        binOp .Plus pos lhs rhs = .ok (.Number (a + b)))
    ∧ (∀ (pos : Pos) (lhs rhs : Obj),
        (∀ t, lhs ≠ .Str t) → (∀ t, rhs ≠ .Str t) →
        (asNum lhs = none ∨ asNum rhs = none) →
        binOp .Plus pos lhs rhs
          = .error (.binaryUndefined pos .Plus lhs rhs)) := by
  refine ⟨fun pos s s' => rfl, ?_, ?_, ?_, ?_⟩
  · intro pos s rhs h
    cases rhs with
    | Str t => exact absurd rfl (h t)
    | _ => rfl
  · intro pos lhs s h
    cases lhs with
    | Str t => exact absurd rfl (h t)
    | _ => rfl
  · intro pos lhs rhs a b ha hb
    cases lhs <;> cases rhs <;> simp_all [binOp, numOp, asNum]
  · intro pos lhs rhs hl hr hn
    cases lhs with
    | Str t => exact absurd rfl (hl t)
    | _ =>
        cases rhs with
        | Str t => exact absurd rfl (hr t)
        | _ => first
          | rfl
          | (exact absurd hn (by simp [asNum]))

/-- C8 witness: the quantified conjuncts at concrete operands — `"a" + 1`
concatenates, `true + 2` sums as `1 + 2`, and `nil + 1` is the tagged
runtime error. -/
theorem c8_witness :
    binOp .Plus (1, 1) (.Str "a") (.Number 1)
        = .ok (.Str ("a" ++ (Obj.Number 1).display))
    ∧ binOp .Plus (1, 1) (.Bool true) (.Number 2) = .ok (.Number (1 + 2))
    ∧ binOp .Plus (1, 1) .Nil (.Number 1)
        = .error (.binaryUndefined (1, 1) .Plus .Nil (.Number 1)) :=
  ⟨c8_plus_operator_dispatch.2.1 (1, 1) "a" (.Number 1)
      (fun t h => Obj.noConfusion h),
   c8_plus_operator_dispatch.2.2.2.1 (1, 1) (.Bool true) (.Number 2) 1 2
      rfl rfl,
   c8_plus_operator_dispatch.2.2.2.2 (1, 1) .Nil (.Number 1)
      (fun t h => Obj.noConfusion h) (fun t h => Obj.noConfusion h)
      (Or.inl rfl)⟩

/-- C9: truthiness and short-circuiting.  First conjunct: a value is falsy
iff it is `Nil` or `Bool(false)` (so `Number 0` and `Str ""` are truthy).
Second: `and` with a falsy left operand returns that operand's value and
state untouched — for *every* right operand expression, which is therefore
not evaluated.  Third: `or` with a truthy left operand likewise. -/
theorem c9_truthiness_and_short_circuit :
    (∀ o : Obj, o.to_bool = false ↔ (o = .Nil ∨ o = .Bool false))
    ∧ (∀ (fuel : Nat) (st st' : St) (l r : Expr) (op : Token) (v : Obj),
        op.ty = .And → evalE fuel l st = (st', .ok v) → v.to_bool = false →
        evalE (fuel + 1) (.Logical l op r) st = (st', .ok v))
    ∧ (∀ (fuel : Nat) (st st' : St) (l r : Expr) (op : Token) (v : Obj),
        op.ty = .Or → evalE fuel l st = (st', .ok v) → v.to_bool = true →
        evalE (fuel + 1) (.Logical l op r) st = (st', .ok v)) := by
  refine ⟨?_, ?_, ?_⟩
  · intro o
    cases o with
    | Bool b => cases b <;> simp [Obj.to_bool]
    | _ => simp [Obj.to_bool]
  · intro fuel st st' l r op v hty hl hv
    obtain ⟨ty, lex, pos⟩ := op
    simp only [Token.ty] at hty
    subst hty
    simp only [evalE, interpN, interpStep]
    rw [show (interpN fuel).evalE l st = (st', .ok v) from hl]
    simp [mbind, hv]
  · intro fuel st st' l r op v hty hl hv
    obtain ⟨ty, lex, pos⟩ := op
    simp only [Token.ty] at hty
    subst hty
    simp only [evalE, interpN, interpStep]
    rw [show (interpN fuel).evalE l st = (st', .ok v) from hl]
    simp [mbind, hv]

/-- C9 witness: `nil and nope` — the right operand is an undefined variable
that would fail if evaluated; the result is `Nil` with the state
untouched. -/
theorem c9_witness :
    evalE 2 (.Logical (.Literal .Nil) ⟨.And, "and", (1, 5)⟩
        (.Variable (idTok "nope" (1, 9)))) (initSt [])
      = (initSt [], .ok .Nil) :=
  c9_truthiness_and_short_circuit.2.1 1 (initSt []) (initSt [])
    (.Literal .Nil) (.Variable (idTok "nope" (1, 9)))
    ⟨.And, "and", (1, 5)⟩ .Nil rfl rfl rfl

/-- C10: logical operators return operand values unchanged, never coerced
booleans.  `or`: a truthy left operand is returned as-is, a falsy one defers
to the right operand's evaluation; `and` mirrored; and concretely
`nil or "x"` yields `Str "x"`, not `Bool true`. -/
theorem c10_logical_returns_operand_value :
    (∀ (fuel : Nat) (st st' : St) (l r : Expr) (op : Token) (v : Obj),
        op.ty = .Or → evalE fuel l st = (st', .ok v) → v.to_bool = true →
        evalE (fuel + 1) (.Logical l op r) st = (st', .ok v))
    ∧ (∀ (fuel : Nat) (st st' : St) (l r : Expr) (op : Token) (v : Obj),
        op.ty = .Or → evalE fuel l st = (st', .ok v) → v.to_bool = false →
        evalE (fuel + 1) (.Logical l op r) st = evalE fuel r st')
    ∧ (∀ (fuel : Nat) (st st' : St) (l r : Expr) (op : Token) (v : Obj),
        op.ty = .And → evalE fuel l st = (st', .ok v) → v.to_bool = false →
        evalE (fuel + 1) (.Logical l op r) st = (st', .ok v))
    ∧ (∀ (fuel : Nat) (st st' : St) (l r : Expr) (op : Token) (v : Obj),
        op.ty = .And → evalE fuel l st = (st', .ok v) → v.to_bool = true →
        evalE (fuel + 1) (.Logical l op r) st = evalE fuel r st')
    ∧ (evalE 2 (.Logical (.Literal .Nil) ⟨.Or, "or", (1, 5)⟩ (strLit "x"))
        (initSt [])).2 = .ok (.Str "x") := by
  refine ⟨?_, ?_, ?_, ?_, rfl⟩ <;>
    (intro fuel st st' l r op v hty hl hv
     obtain ⟨ty, lex, pos⟩ := op
     simp only [Token.ty] at hty
     subst hty
     simp only [evalE, interpN, interpStep]
     rw [show (interpN fuel).evalE l st = (st', .ok v) from hl]
     simp [mbind, hv])

/-- C10 witness: `"t" or zzz` yields `Str "t"` without touching the
undefined right operand; `nil or "x"` defers to the right operand. -/
theorem c10_witness :
    evalE 2 (.Logical (strLit "t") ⟨.Or, "or", (1, 3)⟩
        (.Variable (idTok "zzz" (1, 8)))) (initSt [])
      = (initSt [], .ok (.Str "t"))
    ∧ evalE 2 (.Logical (.Literal .Nil) ⟨.Or, "or", (1, 3)⟩ (strLit "x"))
        (initSt [])
      = evalE 1 (strLit "x") (initSt []) :=
  ⟨c10_logical_returns_operand_value.1 1 (initSt []) (initSt [])
      (strLit "t") (.Variable (idTok "zzz" (1, 8))) ⟨.Or, "or", (1, 3)⟩
      (.Str "t") rfl rfl rfl,
   c10_logical_returns_operand_value.2.1 1 (initSt []) (initSt [])
      (.Literal .Nil) (strLit "x") ⟨.Or, "or", (1, 3)⟩ .Nil rfl rfl rfl⟩


end Dolores
